import Mathlib

/-!
Shallow embedding of the particle-physics kernel (`PHYSICS_WORKER_CODE` in
`src/components/EngineView.tsx`).  The worker keeps a mutable list `objects`
of spherical bodies and handles the messages INIT, SPAWN, STEP, EXPLOSION and
RESET.  Numbers are modelled as real numbers; JavaScript's `Math.random()`
draws are modelled as an explicit stream `r : ℕ → ℝ` of values, consumed in
program order (three draws per body for EXPLOSION and RESET).
-/

namespace PhysKernel

noncomputable section

/-- Component triple, mirroring the `Float32Array([x, y, z])` vectors. -/
@[ext] structure Vec3 where
  x : ℝ
  y : ℝ
  z : ℝ

/-- One simulated body, mirroring the worker's object literals
`{pos, prevPos, vel, radius, invMass}`. -/
@[ext] structure Body where
  pos : Vec3
  prevPos : Vec3
  vel : Vec3
  radius : ℝ
  invMass : ℝ

/-- Payload of one body for INIT / SPAWN: `{pos, vel, radius}`. -/
structure BodyInit where
  pos : Vec3
  vel : Vec3
  radius : ℝ

/-- `const WORLD_SIZE = 25`. -/
def WORLD_SIZE : ℝ := 25

/-- `const GRAVITY = -9.81 * 0.001`. -/
def GRAVITY : ℝ := -9.81 * 0.001

/-- `const DAMPING = 0.995`. -/
def DAMPING : ℝ := 0.995

/-- `const FRICTION = 0.95`. -/
def FRICTION : ℝ := 0.95

/-- Body built by the INIT / SPAWN handlers: `prevPos` starts equal to `pos`
and `invMass` is the literal `1.0`. -/
def mkBody (p : BodyInit) : Body :=
  { pos := p.pos, prevPos := p.pos, vel := p.vel, radius := p.radius, invMass := 1 }

/-- INIT handler: `objects = payload.map(obj => ...)`. -/
def initCmd (payload : List BodyInit) : List Body :=
  payload.map mkBody

/-- SPAWN handler: `objects.push({...})`. -/
def spawnCmd (objs : List Body) (payload : BodyInit) : List Body :=
  objs ++ [mkBody payload]

/-- JavaScript's `Math.sign`. -/
def jsign (x : ℝ) : ℝ :=
  if x > 0 then 1 else if x < 0 then -1 else 0

/-- STEP, phase 1 (prediction) for one body, in source order: gravity on the
vertical velocity, damping on all three velocity components, snapshot of
`prevPos`, then position integration. -/
def predictBody (h : ℝ) (b : Body) : Body :=
  let v1 : Vec3 := { b.vel with y := b.vel.y + GRAVITY * h }
  let v2 : Vec3 := ⟨v1.x * DAMPING, v1.y * DAMPING, v1.z * DAMPING⟩
  let pp : Vec3 := b.pos
  let np : Vec3 := ⟨b.pos.x + v2.x * h, b.pos.y + v2.y * h, b.pos.z + v2.z * h⟩
  { b with pos := np, prevPos := pp, vel := v2 }

/-- Floor constraint: `if (obj.pos[1] < obj.radius) { clamp, horizontal friction }`. -/
def clampFloor (b : Body) : Body :=
  if b.pos.y < b.radius then
    { b with pos := { b.pos with y := b.radius },
             vel := { b.vel with x := b.vel.x * FRICTION, z := b.vel.z * FRICTION } }
  else b

/-- x boundary constraint: clamp to `sign(x) * WORLD_SIZE`, reflect `vel.x` by `-0.5`. -/
def clampX (b : Body) : Body :=
  if |b.pos.x| > WORLD_SIZE then
    { b with pos := { b.pos with x := jsign b.pos.x * WORLD_SIZE },
             vel := { b.vel with x := b.vel.x * (-0.5) } }
  else b

/-- z boundary constraint: clamp to `sign(z) * WORLD_SIZE`, reflect `vel.z` by `-0.5`. -/
def clampZ (b : Body) : Body :=
  if |b.pos.z| > WORLD_SIZE then
    { b with pos := { b.pos with z := jsign b.pos.z * WORLD_SIZE },
             vel := { b.vel with z := b.vel.z * (-0.5) } }
  else b

/-- STEP, environment constraints for one body, in source order: floor clamp
with horizontal friction, then the x wall, then the z wall. -/
def envBody (b : Body) : Body :=
  clampZ (clampX (clampFloor b))

/-- Environment-constraint sweep over the store. -/
def envPass (objs : List Body) : List Body :=
  objs.map envBody

/-- `dx*dx + dy*dy + dz*dz` for the pair `(a, b)`, with `d· = b.pos - a.pos`. -/
def distSqOf (a b : Body) : ℝ :=
  (b.pos.x - a.pos.x) * (b.pos.x - a.pos.x) +
  (b.pos.y - a.pos.y) * (b.pos.y - a.pos.y) +
  (b.pos.z - a.pos.z) * (b.pos.z - a.pos.z)

/-- One pairwise non-penetration resolution, mirroring the body of the inner
`j` loop of STEP phase 2. -/
def resolvePair (a b : Body) : Body × Body :=
  let dx := b.pos.x - a.pos.x
  let dy := b.pos.y - a.pos.y
  let dz := b.pos.z - a.pos.z
  let distSq := distSqOf a b
  let minDist := a.radius + b.radius
  if distSq < minDist * minDist ∧ distSq > 0.00001 then
    let dist := Real.sqrt distSq
    let overlap := minDist - dist
    let nx := dx / dist
    let ny := dy / dist
    let nz := dz / dist
    let totalInvMass := a.invMass + b.invMass
    let corrA := overlap * (a.invMass / totalInvMass)
    let corrB := overlap * (b.invMass / totalInvMass)
    ({ a with pos := ⟨a.pos.x - nx * corrA, a.pos.y - ny * corrA, a.pos.z - nz * corrA⟩ },
     { b with pos := ⟨b.pos.x + nx * corrB, b.pos.y + ny * corrB, b.pos.z + nz * corrB⟩ })
  else (a, b)

/-- Resolve the pair at indices `(i, j)` in place, like the source which
mutates `objects[i]` and `objects[j]`. -/
def pairStepAt (objs : List Body) (i j : ℕ) : List Body :=
  match objs.get? i, objs.get? j with
  | some a, some b =>
      let ab := resolvePair a b
      (objs.set i ab.1).set j ab.2
  | _, _ => objs

/-- Index pairs `(i, j)` with `i < j < n`, in the source's loop order. -/
def pairIndices (n : ℕ) : List (ℕ × ℕ) :=
  (List.range n).flatMap fun i => ((List.range n).drop (i + 1)).map fun j => (i, j)

/-- Pairwise non-penetration sweep: sequential (Gauss-Seidel) resolution over
all index pairs in loop order. -/
def pairPass (objs : List Body) : List Body :=
  (pairIndices objs.length).foldl (fun acc ij => pairStepAt acc ij.1 ij.2) objs

/-- One constraint-solver iteration: environment constraints first, then the
pairwise pass. -/
def solverIter (objs : List Body) : List Body :=
  pairPass (envPass objs)

/-- Snap-to-zero applied to a reconstructed velocity component:
`if (Math.abs(v) < 0.001) v = 0`. -/
def snapSmall (v : ℝ) : ℝ :=
  if |v| < 0.001 then 0 else v

/-- STEP, phase 3 (velocity update) for one body, in source order: recompute
the velocity from the position delta, then snap each small component to 0. -/
def velBody (h : ℝ) (b : Body) : Body :=
  let v : Vec3 := ⟨(b.pos.x - b.prevPos.x) / h, (b.pos.y - b.prevPos.y) / h,
                   (b.pos.z - b.prevPos.z) / h⟩
  let v1 := if |v.x| < 0.001 then { v with x := 0 } else v
  let v2 := if |v1.y| < 0.001 then { v1 with y := 0 } else v1
  let v3 := if |v2.z| < 0.001 then { v2 with z := 0 } else v2
  { b with vel := v3 }

/-- One substep of STEP: prediction, four solver iterations, velocity update. -/
def substepF (h : ℝ) (objs : List Body) : List Body :=
  (solverIter^[4] (objs.map (predictBody h))).map (velBody h)

/-- Effective `dt` of a STEP message: models `payload.dt || 1.0` (JavaScript
`||` replaces the falsy numbers, i.e. an absent field or `0`, by `1.0`). -/
def effDt (payload : Option ℝ) : ℝ :=
  match payload with
  | none => 1.0
  | some d => if d = 0 then 1.0 else d

/-- STEP handler on the store: `h = dt / 12` and twelve substeps. -/
def stepBodies (objs : List Body) (payload : Option ℝ) : List Body :=
  (substepF (effDt payload / 12))^[12] objs

/-- The store as it stands right after the last environment-constraint sweep
of a STEP (iteration 4 of substep 12), i.e. just before the final pairwise
pass. -/
def lastClampState (objs : List Body) (payload : Option ℝ) : List Body :=
  envPass (solverIter^[3]
    (((substepF (effDt payload / 12))^[11] objs).map (predictBody (effDt payload / 12))))

/-- Flat `[x, y, z]` output triples posted back after a STEP. -/
def positionsOut (objs : List Body) : List ℝ :=
  objs.flatMap fun b => [b.pos.x, b.pos.y, b.pos.z]

/-- Distance term of a candidate contact: `Math.sqrt(distSq)`. -/
def pairDist (a b : Body) : ℝ := Real.sqrt (distSqOf a b)

/-- Overlap depth of a candidate contact. -/
def pairOverlap (a b : Body) : ℝ := (a.radius + b.radius) - pairDist a b

/-- Positional correction assigned to the first body of a pair. -/
def pairCorrA (a b : Body) : ℝ :=
  pairOverlap a b * (a.invMass / (a.invMass + b.invMass))

/-- Positional correction assigned to the second body of a pair. -/
def pairCorrB (a b : Body) : ℝ :=
  pairOverlap a b * (b.invMass / (a.invMass + b.invMass))

/-- EXPLOSION handler for one body, given the stream index `k` of its first
random draw: `force = 3.5`, additive velocity perturbation. -/
def explosionBody (r : ℕ → ℝ) (k : ℕ) (b : Body) : Body :=
  { b with vel := ⟨b.vel.x + (r k - 0.5) * 3.5,
                   b.vel.y + r (k + 1) * 3.5 * 1.5,
                   b.vel.z + (r (k + 2) - 0.5) * 3.5⟩ }

/-- RESET body re-randomization, three draws per body:
`pos = ((r-0.5)*5, 10 + r*20, (r-0.5)*5)`, `vel.fill(0)`. -/
def resetBody (r : ℕ → ℝ) (k : ℕ) (b : Body) : Body :=
  { b with pos := ⟨(r k - 0.5) * 5.0, 10 + r (k + 1) * 20, (r (k + 2) - 0.5) * 5.0⟩,
           vel := ⟨0, 0, 0⟩ }

/-- Map a per-body transformation over the store, advancing the random-draw
counter by three per body (the sequential `for (const obj of objects)` loops
of EXPLOSION and RESET). -/
def drawMap (g : ℕ → Body → Body) : ℕ → List Body → List Body
  | _, [] => []
  | k, b :: rest => g k b :: drawMap g (k + 3) rest

/-- EXPLOSION handler on the store. -/
def explosionCmd (objs : List Body) (r : ℕ → ℝ) : List Body :=
  drawMap (explosionBody r) 0 objs

/-- RESET handler on the store: `objects = objects.slice(0, 35)` (the payload,
if any, is never read) followed by re-randomization of the retained bodies. -/
def resetCmd (_payload : Option ℕ) (objs : List Body) (r : ℕ → ℝ) : List Body :=
  drawMap (resetBody r) 0 (objs.take 35)

/-- Worker messages. -/
inductive Cmd where
  | inits : List BodyInit → Cmd
  | spawn : BodyInit → Cmd
  | step : Option ℝ → Cmd
  | explosion : Cmd
  | reset : Option ℕ → Cmd

/-- Ambient worker state: the store, the index of the next random draw, and
the list of position snapshots posted so far. -/
structure WorkerState where
  objs : List Body
  nextDraw : ℕ
  outputs : List (List ℝ)

/-- The message dispatcher (`self.onmessage`), with the random stream `r`. -/
def handle (r : ℕ → ℝ) (s : WorkerState) : Cmd → WorkerState
  | .inits ps => { s with objs := initCmd ps }
  | .spawn p => { s with objs := spawnCmd s.objs p }
  | .step d => { s with objs := stepBodies s.objs d,
                        outputs := s.outputs ++ [positionsOut (stepBodies s.objs d)] }
  | .explosion => { s with objs := drawMap (explosionBody r) s.nextDraw s.objs,
                           nextDraw := s.nextDraw + 3 * s.objs.length }
  | .reset _ => { s with objs := drawMap (resetBody r) s.nextDraw (s.objs.take 35),
                         nextDraw := s.nextDraw + 3 * min s.objs.length 35 }

/-- Run one STEP message per entry of `dts`. -/
def runSteps (r : ℕ → ℝ) (s : WorkerState) (dts : List (Option ℝ)) : WorkerState :=
  dts.foldl (fun st d => handle r st (Cmd.step d)) s

end

/-! ### Helper lemmas -/

section Helpers

lemma map_set_eq {α β : Type _} (f : α → β) (l : List α) (i : ℕ) (a : α)
    (h : ∀ b, l.get? i = some b → f a = f b) :
    (l.set i a).map f = l.map f := by
  induction l generalizing i with
  | nil => simp
  | cons x xs ih =>
    cases i with
    | zero => simpa using (h x rfl)
    | succ n =>
      simp only [List.set_cons_succ, List.map_cons, List.cons.injEq, true_and]
      exact ih n (fun b hb => h b hb)

lemma resolvePair_fst_radius (a b : PhysKernel.Body) :
    (PhysKernel.resolvePair a b).1.radius = a.radius := by
  simp only [PhysKernel.resolvePair]
  split <;> rfl

lemma resolvePair_snd_radius (a b : PhysKernel.Body) :
    (PhysKernel.resolvePair a b).2.radius = b.radius := by
  simp only [PhysKernel.resolvePair]
  split <;> rfl

lemma resolvePair_fst_invMass (a b : PhysKernel.Body) :
    (PhysKernel.resolvePair a b).1.invMass = a.invMass := by
  simp only [PhysKernel.resolvePair]
  split <;> rfl

lemma resolvePair_snd_invMass (a b : PhysKernel.Body) :
    (PhysKernel.resolvePair a b).2.invMass = b.invMass := by
  simp only [PhysKernel.resolvePair]
  split <;> rfl

lemma pairStepAt_map {γ : Type _} (f : PhysKernel.Body → γ)
    (hf : ∀ a b, f (PhysKernel.resolvePair a b).1 = f a ∧
                 f (PhysKernel.resolvePair a b).2 = f b)
    (l : List PhysKernel.Body) (i j : ℕ) :
    (PhysKernel.pairStepAt l i j).map f = l.map f := by
  unfold PhysKernel.pairStepAt
  cases hi : l.get? i with
  | none => simp
  | some a =>
    cases hj : l.get? j with
    | none => simp
    | some b =>
      simp only
      rcases eq_or_ne i j with rfl | hij
      · have hab : a = b := Option.some_injective _ (hi.symm.trans hj)
        rw [List.set_set]
        refine map_set_eq f l i _ (fun c hc => ?_)
        have hcb : c = b := Option.some_injective _ (hj.symm.trans hc).symm
        rw [hcb, (hf a b).2]
      · rw [map_set_eq f _ j _ (fun c hc => ?_), map_set_eq f l i _ (fun c hc => ?_)]
        · rw [hi] at hc
          exact (hf a b).1.trans (congrArg f (Option.some_injective _ hc.symm).symm)
        · rw [List.get?_set_ne _ _ hij, hj] at hc
          exact (hf a b).2.trans (congrArg f (Option.some_injective _ hc.symm).symm)

lemma foldl_pairStepAt_map {γ : Type _} (f : PhysKernel.Body → γ)
    (hf : ∀ a b, f (PhysKernel.resolvePair a b).1 = f a ∧
                 f (PhysKernel.resolvePair a b).2 = f b) :
    ∀ (idxs : List (ℕ × ℕ)) (l : List PhysKernel.Body),
      (idxs.foldl (fun acc ij => PhysKernel.pairStepAt acc ij.1 ij.2) l).map f = l.map f := by
  intro idxs
  induction idxs with
  | nil => intro l; rfl
  | cons ij rest ih =>
    intro l
    simp only [List.foldl_cons]
    rw [ih, pairStepAt_map f hf]

lemma pairPass_map {γ : Type _} (f : PhysKernel.Body → γ)
    (hf : ∀ a b, f (PhysKernel.resolvePair a b).1 = f a ∧
                 f (PhysKernel.resolvePair a b).2 = f b)
    (l : List PhysKernel.Body) :
    (PhysKernel.pairPass l).map f = l.map f :=
  foldl_pairStepAt_map f hf _ l

lemma pairPass_map_radius (l : List PhysKernel.Body) :
    (PhysKernel.pairPass l).map PhysKernel.Body.radius = l.map PhysKernel.Body.radius :=
  pairPass_map _ (fun a b => ⟨resolvePair_fst_radius a b, resolvePair_snd_radius a b⟩) l

lemma pairPass_map_invMass (l : List PhysKernel.Body) :
    (PhysKernel.pairPass l).map PhysKernel.Body.invMass = l.map PhysKernel.Body.invMass :=
  pairPass_map _ (fun a b => ⟨resolvePair_fst_invMass a b, resolvePair_snd_invMass a b⟩) l

lemma pairPass_length (l : List PhysKernel.Body) :
    (PhysKernel.pairPass l).length = l.length := by
  have h := congrArg List.length (pairPass_map_radius l)
  simpa using h

lemma velBody_pos (h : ℝ) (b : PhysKernel.Body) :
    (PhysKernel.velBody h b).pos = b.pos := rfl

lemma velBody_radius (h : ℝ) (b : PhysKernel.Body) :
    (PhysKernel.velBody h b).radius = b.radius := rfl

lemma velBody_invMass (h : ℝ) (b : PhysKernel.Body) :
    (PhysKernel.velBody h b).invMass = b.invMass := rfl

lemma predictBody_radius (h : ℝ) (b : PhysKernel.Body) :
    (PhysKernel.predictBody h b).radius = b.radius := rfl

lemma predictBody_invMass (h : ℝ) (b : PhysKernel.Body) :
    (PhysKernel.predictBody h b).invMass = b.invMass := rfl

lemma jsign_mul_world_abs_le (x : ℝ) :
    |PhysKernel.jsign x * PhysKernel.WORLD_SIZE| ≤ PhysKernel.WORLD_SIZE := by
  have hw : (0 : ℝ) ≤ PhysKernel.WORLD_SIZE := by norm_num [PhysKernel.WORLD_SIZE]
  have h1 : |PhysKernel.jsign x| ≤ 1 := by
    unfold PhysKernel.jsign
    split_ifs <;> simp
  calc |PhysKernel.jsign x * PhysKernel.WORLD_SIZE|
      = |PhysKernel.jsign x| * |PhysKernel.WORLD_SIZE| := abs_mul _ _
    _ ≤ 1 * |PhysKernel.WORLD_SIZE| := by
        exact mul_le_mul_of_nonneg_right h1 (abs_nonneg _)
    _ = PhysKernel.WORLD_SIZE := by rw [one_mul, abs_of_nonneg hw]

lemma clampFloor_y (b : PhysKernel.Body) :
    b.radius ≤ (PhysKernel.clampFloor b).pos.y := by
  unfold PhysKernel.clampFloor
  split
  · exact le_refl _
  · exact le_of_not_lt (by assumption)

lemma clampFloor_radius (b : PhysKernel.Body) :
    (PhysKernel.clampFloor b).radius = b.radius := by
  unfold PhysKernel.clampFloor; split <;> rfl

lemma clampFloor_invMass (b : PhysKernel.Body) :
    (PhysKernel.clampFloor b).invMass = b.invMass := by
  unfold PhysKernel.clampFloor; split <;> rfl

lemma clampX_x (b : PhysKernel.Body) :
    |(PhysKernel.clampX b).pos.x| ≤ PhysKernel.WORLD_SIZE := by
  unfold PhysKernel.clampX
  split
  · exact jsign_mul_world_abs_le _
  · exact le_of_not_lt (by assumption)

lemma clampX_y (b : PhysKernel.Body) :
    (PhysKernel.clampX b).pos.y = b.pos.y := by
  unfold PhysKernel.clampX; split <;> rfl

lemma clampX_z (b : PhysKernel.Body) :
    (PhysKernel.clampX b).pos.z = b.pos.z := by
  unfold PhysKernel.clampX; split <;> rfl

lemma clampX_radius (b : PhysKernel.Body) :
    (PhysKernel.clampX b).radius = b.radius := by
  unfold PhysKernel.clampX; split <;> rfl

lemma clampX_invMass (b : PhysKernel.Body) :
    (PhysKernel.clampX b).invMass = b.invMass := by
  unfold PhysKernel.clampX; split <;> rfl

lemma clampZ_z (b : PhysKernel.Body) :
    |(PhysKernel.clampZ b).pos.z| ≤ PhysKernel.WORLD_SIZE := by
  unfold PhysKernel.clampZ
  split
  · exact jsign_mul_world_abs_le _
  · exact le_of_not_lt (by assumption)

lemma clampZ_x (b : PhysKernel.Body) :
    (PhysKernel.clampZ b).pos.x = b.pos.x := by
  unfold PhysKernel.clampZ; split <;> rfl

lemma clampZ_y (b : PhysKernel.Body) :
    (PhysKernel.clampZ b).pos.y = b.pos.y := by
  unfold PhysKernel.clampZ; split <;> rfl

lemma clampZ_radius (b : PhysKernel.Body) :
    (PhysKernel.clampZ b).radius = b.radius := by
  unfold PhysKernel.clampZ; split <;> rfl

lemma clampZ_invMass (b : PhysKernel.Body) :
    (PhysKernel.clampZ b).invMass = b.invMass := by
  unfold PhysKernel.clampZ; split <;> rfl

lemma envBody_radius (b : PhysKernel.Body) :
    (PhysKernel.envBody b).radius = b.radius := by
  unfold PhysKernel.envBody
  rw [clampZ_radius, clampX_radius, clampFloor_radius]

lemma envBody_invMass (b : PhysKernel.Body) :
    (PhysKernel.envBody b).invMass = b.invMass := by
  unfold PhysKernel.envBody
  rw [clampZ_invMass, clampX_invMass, clampFloor_invMass]

lemma envBody_bounds (b : PhysKernel.Body) :
    (PhysKernel.envBody b).radius ≤ (PhysKernel.envBody b).pos.y ∧
    |(PhysKernel.envBody b).pos.x| ≤ PhysKernel.WORLD_SIZE ∧
    |(PhysKernel.envBody b).pos.z| ≤ PhysKernel.WORLD_SIZE := by
  refine ⟨?_, ?_, ?_⟩
  · rw [envBody_radius]
    unfold PhysKernel.envBody
    rw [clampZ_y, clampX_y]
    exact (clampFloor_radius b) ▸ (clampFloor_radius b).symm ▸ clampFloor_y b
  · unfold PhysKernel.envBody
    rw [clampZ_x]
    exact clampX_x _
  · exact clampZ_z _

lemma drawMap_get? (g : ℕ → PhysKernel.Body → PhysKernel.Body) :
    ∀ (l : List PhysKernel.Body) (k i : ℕ),
      (PhysKernel.drawMap g k l).get? i = (l.get? i).map (g (k + 3 * i)) := by
  intro l
  induction l with
  | nil => intro k i; simp [PhysKernel.drawMap]
  | cons b rest ih =>
    intro k i
    cases i with
    | zero => simp [PhysKernel.drawMap]
    | succ n =>
      simp only [PhysKernel.drawMap, List.get?_cons_succ]
      rw [ih (k + 3) n, show k + 3 + 3 * n = k + 3 * (n + 1) from by omega]

lemma drawMap_length (g : ℕ → PhysKernel.Body → PhysKernel.Body) :
    ∀ (l : List PhysKernel.Body) (k : ℕ),
      (PhysKernel.drawMap g k l).length = l.length := by
  intro l
  induction l with
  | nil => intro k; rfl
  | cons b rest ih => intro k; simp [PhysKernel.drawMap, ih]

lemma forall₂_of_get? {α β : Type _} (R : α → β → Prop) :
    ∀ (l₁ : List α) (l₂ : List β), l₁.length = l₂.length →
      (∀ i a b, l₁.get? i = some a → l₂.get? i = some b → R a b) →
      List.Forall₂ R l₁ l₂ := by
  intro l₁
  induction l₁ with
  | nil =>
    intro l₂ hlen _
    cases l₂ with
    | nil => exact List.Forall₂.nil
    | cons c t => simp at hlen
  | cons a t ih =>
    intro l₂ hlen h
    cases l₂ with
    | nil => simp at hlen
    | cons c u =>
      refine List.Forall₂.cons (h 0 a c rfl rfl) (ih u (by simpa using hlen) ?_)
      intro i x y hx hy
      exact h (i + 1) x y (by simpa using hx) (by simpa using hy)

lemma step_decomp (objs : List PhysKernel.Body) (payload : Option ℝ) :
    PhysKernel.stepBodies objs payload =
      (PhysKernel.pairPass (PhysKernel.lastClampState objs payload)).map
        (PhysKernel.velBody (PhysKernel.effDt payload / 12)) := by
  unfold PhysKernel.stepBodies PhysKernel.lastClampState
  rw [show (12 : ℕ) = 11 + 1 from rfl, Function.iterate_succ_apply']
  conv_lhs => rw [PhysKernel.substepF]
  rw [show (4 : ℕ) = 3 + 1 from rfl, Function.iterate_succ_apply']
  rfl

end Helpers

section PairHelpers

lemma resolvePair_eq_of_cond (a b : PhysKernel.Body)
    (hov : PhysKernel.distSqOf a b < (a.radius + b.radius) * (a.radius + b.radius))
    (heps : PhysKernel.distSqOf a b > 0.00001) :
    PhysKernel.resolvePair a b =
      ({ a with pos :=
          ⟨a.pos.x - (b.pos.x - a.pos.x) / PhysKernel.pairDist a b * PhysKernel.pairCorrA a b,
           a.pos.y - (b.pos.y - a.pos.y) / PhysKernel.pairDist a b * PhysKernel.pairCorrA a b,
           a.pos.z - (b.pos.z - a.pos.z) / PhysKernel.pairDist a b * PhysKernel.pairCorrA a b⟩ },
       { b with pos :=
          ⟨b.pos.x + (b.pos.x - a.pos.x) / PhysKernel.pairDist a b * PhysKernel.pairCorrB a b,
           b.pos.y + (b.pos.y - a.pos.y) / PhysKernel.pairDist a b * PhysKernel.pairCorrB a b,
           b.pos.z + (b.pos.z - a.pos.z) / PhysKernel.pairDist a b * PhysKernel.pairCorrB a b⟩ }) := by
  simp only [PhysKernel.resolvePair]
  rw [if_pos ⟨hov, heps⟩]
  unfold PhysKernel.pairCorrA PhysKernel.pairCorrB PhysKernel.pairOverlap PhysKernel.pairDist
  rfl

lemma resolvePair_skip (a b : PhysKernel.Body)
    (h : PhysKernel.distSqOf a b ≤ 0.00001) :
    PhysKernel.resolvePair a b = (a, b) := by
  simp only [PhysKernel.resolvePair]
  rw [if_neg]
  intro hcond
  exact absurd hcond.2 (not_lt.mpr h)

end PairHelpers

/-! ### Claim theorems -/

/-- C1: Containment after advance.  After any STEP, every body satisfies
`pos.y ≥ radius - ε`, `|pos.x| ≤ WORLD_SIZE + ε` and `|pos.z| ≤ WORLD_SIZE + ε`,
where for each body and axis the tolerance ε is exactly the magnitude of the
positional correction applied by the final pairwise pass after the last
floor/wall clamp (the clamps run before the pairwise pass in every solver
iteration, and the velocity update phase leaves positions untouched). -/
theorem containment_after_advance (objs : List PhysKernel.Body) (payload : Option ℝ) :
    List.Forall₂
      (fun b c =>
        b.radius - |b.pos.y - c.pos.y| ≤ b.pos.y ∧
        |b.pos.x| ≤ PhysKernel.WORLD_SIZE + |b.pos.x - c.pos.x| ∧
        |b.pos.z| ≤ PhysKernel.WORLD_SIZE + |b.pos.z - c.pos.z|)
      (PhysKernel.stepBodies objs payload) (PhysKernel.lastClampState objs payload) := by
  rw [step_decomp]
  apply forall₂_of_get?
  · rw [List.length_map, pairPass_length, PhysKernel.lastClampState, PhysKernel.envPass,
      List.length_map]
  · intro i b c hb hc
    rw [List.get?_map] at hb
    cases hb' : (PhysKernel.pairPass (PhysKernel.lastClampState objs payload)).get? i with
    | none => rw [hb'] at hb; exact absurd hb (by simp)
    | some b' =>
      rw [hb'] at hb
      have hbb : b = PhysKernel.velBody (PhysKernel.effDt payload / 12) b' :=
        (Option.some_injective _ hb).symm
      have hrad : b'.radius = c.radius := by
        have hmr := congrArg (fun l => l.get? i)
          (pairPass_map_radius (PhysKernel.lastClampState objs payload))
        simp only [List.get?_map, hb', hc, Option.map_some] at hmr
        exact Option.some_injective _ hmr
      have hcbound : c.radius ≤ c.pos.y ∧ |c.pos.x| ≤ PhysKernel.WORLD_SIZE ∧
          |c.pos.z| ≤ PhysKernel.WORLD_SIZE := by
        rw [PhysKernel.lastClampState, PhysKernel.envPass, List.get?_map] at hc
        cases hm : (PhysKernel.solverIter^[3]
            (((PhysKernel.substepF (PhysKernel.effDt payload / 12))^[11] objs).map
              (PhysKernel.predictBody (PhysKernel.effDt payload / 12)))).get? i with
        | none => rw [hm] at hc; exact absurd hc (by simp)
        | some m =>
          rw [hm] at hc
          have : c = PhysKernel.envBody m := (Option.some_injective _ hc).symm
          rw [this]
          exact ⟨(envBody_radius m) ▸ (envBody_bounds m).1, (envBody_bounds m).2.1,
            (envBody_bounds m).2.2⟩
      have hpos : b.pos = b'.pos := by rw [hbb]; exact velBody_pos _ _
      have hbrad : b.radius = c.radius := by
        rw [hbb]; rw [velBody_radius]; exact hrad
      refine ⟨?_, ?_, ?_⟩
      · have h1 : -(|b.pos.y - c.pos.y|) ≤ b.pos.y - c.pos.y := neg_abs_le _
        have h2 : c.radius ≤ c.pos.y := hcbound.1
        rw [hbrad]
        linarith
      · have h1 : |b.pos.x| - |c.pos.x| ≤ |b.pos.x - c.pos.x| := abs_sub_abs_le_abs_sub _ _
        have h2 : |c.pos.x| ≤ PhysKernel.WORLD_SIZE := hcbound.2.1
        linarith
      · have h1 : |b.pos.z| - |c.pos.z| ≤ |b.pos.z - c.pos.z| := abs_sub_abs_le_abs_sub _ _
        have h2 : |c.pos.z| ≤ PhysKernel.WORLD_SIZE := hcbound.2.2
        linarith

/-- C2: Mass-weighted pairwise correction.  For a pair whose squared distance
lies strictly between the epsilon `0.00001` and `(radius_a + radius_b)^2`
(and whose combined inverse mass is positive), one resolution step moves `a`
by `corrA = overlap * invMass_a / total` opposite the contact normal and `b`
by `corrB = overlap * invMass_b / total` along it; the corrections sum to the
overlap, a 2:1 inverse-mass ratio yields a 2:1 correction split, and a body
with zero inverse mass does not move.  A pair at or below the epsilon is
skipped unchanged. -/
theorem pairwise_mass_weighted_correction (a b : PhysKernel.Body) :
    (PhysKernel.distSqOf a b < (a.radius + b.radius) * (a.radius + b.radius) →
     PhysKernel.distSqOf a b > 0.00001 →
     0 < a.invMass + b.invMass →
     ((PhysKernel.resolvePair a b).1.pos.x =
        a.pos.x - (b.pos.x - a.pos.x) / PhysKernel.pairDist a b * PhysKernel.pairCorrA a b ∧
      (PhysKernel.resolvePair a b).1.pos.y =
        a.pos.y - (b.pos.y - a.pos.y) / PhysKernel.pairDist a b * PhysKernel.pairCorrA a b ∧
      (PhysKernel.resolvePair a b).1.pos.z =
        a.pos.z - (b.pos.z - a.pos.z) / PhysKernel.pairDist a b * PhysKernel.pairCorrA a b ∧
      (PhysKernel.resolvePair a b).2.pos.x =
        b.pos.x + (b.pos.x - a.pos.x) / PhysKernel.pairDist a b * PhysKernel.pairCorrB a b ∧
      (PhysKernel.resolvePair a b).2.pos.y =
        b.pos.y + (b.pos.y - a.pos.y) / PhysKernel.pairDist a b * PhysKernel.pairCorrB a b ∧
      (PhysKernel.resolvePair a b).2.pos.z =
        b.pos.z + (b.pos.z - a.pos.z) / PhysKernel.pairDist a b * PhysKernel.pairCorrB a b) ∧
     PhysKernel.pairCorrA a b + PhysKernel.pairCorrB a b = PhysKernel.pairOverlap a b ∧
     (a.invMass = 2 * b.invMass → PhysKernel.pairCorrA a b = 2 * PhysKernel.pairCorrB a b) ∧
     (a.invMass = 0 → (PhysKernel.resolvePair a b).1 = a) ∧
     (b.invMass = 0 → (PhysKernel.resolvePair a b).2 = b)) ∧
    (PhysKernel.distSqOf a b ≤ 0.00001 → PhysKernel.resolvePair a b = (a, b)) := by
  constructor
  · intro hov heps htot
    have ht : a.invMass + b.invMass ≠ 0 := ne_of_gt htot
    have heq := resolvePair_eq_of_cond a b hov heps
    refine ⟨?_, ?_, ?_, ?_, ?_⟩
    · rw [heq]
      exact ⟨rfl, rfl, rfl, rfl, rfl, rfl⟩
    · unfold PhysKernel.pairCorrA PhysKernel.pairCorrB
      field_simp
      ring
    · intro hratio
      have hbm : b.invMass ≠ 0 := by
        intro h0
        rw [h0, mul_zero] at hratio
        rw [hratio, h0] at htot
        simp at htot
      unfold PhysKernel.pairCorrA PhysKernel.pairCorrB
      rw [hratio]
      have h3 : 2 * b.invMass + b.invMass = 3 * b.invMass := by ring
      rw [h3]
      field_simp
      ring
    · intro hzero
      rw [heq]
      have hc0 : PhysKernel.pairCorrA a b = 0 := by
        unfold PhysKernel.pairCorrA
        rw [hzero]
        simp
      simp [hc0]
    · intro hzero
      rw [heq]
      have hc0 : PhysKernel.pairCorrB a b = 0 := by
        unfold PhysKernel.pairCorrB
        rw [hzero]
        simp
      simp [hc0]
  · exact resolvePair_skip a b

/-- Witness pair for the pairwise-correction claims: unit-radius bodies one
unit apart on the x axis, inverse masses (2, 1). -/
def wa : PhysKernel.Body :=
  { pos := ⟨0, 0, 0⟩, prevPos := ⟨0, 0, 0⟩, vel := ⟨0, 0, 0⟩, radius := 1, invMass := 2 }

/-- Second witness body, one unit from `wa`. -/
def wb : PhysKernel.Body :=
  { pos := ⟨1, 0, 0⟩, prevPos := ⟨1, 0, 0⟩, vel := ⟨0, 0, 0⟩, radius := 1, invMass := 1 }

/-- Coincident-centre witness body (same position as `wa`). -/
def wc : PhysKernel.Body :=
  { pos := ⟨0, 0, 0⟩, prevPos := ⟨0, 0, 0⟩, vel := ⟨0, 0, 0⟩, radius := 1, invMass := 1 }

theorem pairwise_mass_weighted_correction_witness :
    (PhysKernel.pairCorrA wa wb + PhysKernel.pairCorrB wa wb = PhysKernel.pairOverlap wa wb ∧
     PhysKernel.pairCorrA wa wb = 2 * PhysKernel.pairCorrB wa wb) ∧
    PhysKernel.resolvePair wa wc = (wa, wc) := by
  have hov : PhysKernel.distSqOf wa wb < (wa.radius + wb.radius) * (wa.radius + wb.radius) := by
    norm_num [PhysKernel.distSqOf, wa, wb]
  have heps : PhysKernel.distSqOf wa wb > 0.00001 := by
    norm_num [PhysKernel.distSqOf, wa, wb]
  have htot : (0 : ℝ) < wa.invMass + wb.invMass := by
    norm_num [wa, wb]
  have hmain := (pairwise_mass_weighted_correction wa wb).1 hov heps htot
  refine ⟨⟨hmain.2.1, hmain.2.2.1 (by norm_num [wa, wb])⟩, ?_⟩
  exact (pairwise_mass_weighted_correction wa wc).2 (by norm_num [PhysKernel.distSqOf, wa, wc])

/-- C3: Integrator prediction step.  In each substep the prediction phase
applies, in order: gravity to the vertical velocity (`GRAVITY` is negative),
one damping multiplication of every velocity component, the `prevPos`
snapshot of the pre-integration position, and the position integration
`pos += vel * h`; radius and inverse mass are untouched, and the substep
pipeline applies exactly this map before its solver iterations. -/
theorem integrator_prediction_step (h : ℝ) (b : PhysKernel.Body) :
    (PhysKernel.predictBody h b).vel =
      ⟨b.vel.x * PhysKernel.DAMPING,
       (b.vel.y + PhysKernel.GRAVITY * h) * PhysKernel.DAMPING,
       b.vel.z * PhysKernel.DAMPING⟩ ∧
    (PhysKernel.predictBody h b).prevPos = b.pos ∧
    (PhysKernel.predictBody h b).pos =
      ⟨b.pos.x + (PhysKernel.predictBody h b).vel.x * h,
       b.pos.y + (PhysKernel.predictBody h b).vel.y * h,
       b.pos.z + (PhysKernel.predictBody h b).vel.z * h⟩ ∧
    (PhysKernel.predictBody h b).radius = b.radius ∧
    (PhysKernel.predictBody h b).invMass = b.invMass ∧
    PhysKernel.GRAVITY < 0 ∧
    (∀ objs, PhysKernel.substepF h objs =
      (PhysKernel.solverIter^[4] (objs.map (PhysKernel.predictBody h))).map
        (PhysKernel.velBody h)) :=
  ⟨rfl, rfl, rfl, rfl, rfl, by norm_num [PhysKernel.GRAVITY], fun _ => rfl⟩

/-- C4: Velocity reconstruction with snap-to-zero.  After the constraint
iterations, each velocity component is recomputed as
`(pos - prevPos) / h` and snapped to exactly `0` when its magnitude is below
`0.001`; in particular a reconstructed magnitude of `0.0005` is reported as
exactly `0`.  Positions, `prevPos`, radius and inverse mass are untouched. -/
theorem velocity_reconstruction_snap (h : ℝ) (b : PhysKernel.Body) :
    (PhysKernel.velBody h b).vel =
      ⟨PhysKernel.snapSmall ((b.pos.x - b.prevPos.x) / h),
       PhysKernel.snapSmall ((b.pos.y - b.prevPos.y) / h),
       PhysKernel.snapSmall ((b.pos.z - b.prevPos.z) / h)⟩ ∧
    (∀ v : ℝ, |v| < 0.001 → PhysKernel.snapSmall v = 0) ∧
    (∀ v : ℝ, |v| = 0.0005 → PhysKernel.snapSmall v = 0) ∧
    (PhysKernel.velBody h b).pos = b.pos ∧
    (PhysKernel.velBody h b).prevPos = b.prevPos ∧
    (PhysKernel.velBody h b).radius = b.radius ∧
    (PhysKernel.velBody h b).invMass = b.invMass := by
  refine ⟨?_, ?_, ?_, rfl, rfl, rfl, rfl⟩
  · simp only [PhysKernel.velBody, PhysKernel.snapSmall]
    split_ifs <;> rfl
  · intro v hv
    unfold PhysKernel.snapSmall
    rw [if_pos hv]
  · intro v hv
    unfold PhysKernel.snapSmall
    rw [if_pos (by rw [hv]; norm_num)]

/-- Witness body for the zero-velocity snap: position delta `0.0005` on x. -/
def wsnap : PhysKernel.Body :=
  { pos := ⟨0.0005, 0, 0⟩, prevPos := ⟨0, 0, 0⟩, vel := ⟨0, 0, 0⟩, radius := 1, invMass := 1 }

theorem velocity_reconstruction_snap_witness :
    (PhysKernel.velBody 1 wsnap).vel.x = 0 := by
  have hthm := velocity_reconstruction_snap 1 wsnap
  have h1 : (PhysKernel.velBody 1 wsnap).vel.x =
      PhysKernel.snapSmall ((wsnap.pos.x - wsnap.prevPos.x) / 1) := by
    rw [hthm.1]
  rw [h1]
  exact hthm.2.2.1 _ (by norm_num [wsnap])

/-- C5 counterexample: a STEP with `dt = -1` is not defaulted.  JavaScript's
`payload.dt || 1.0` replaces only the falsy values (absent field, `0`), so a
negative `dt` is used as-is and the substep size is `-1/12`, not the default
`1/12`. -/
theorem advance_negative_dt_not_defaulted :
    PhysKernel.effDt (some (-1)) = -1 ∧
    PhysKernel.effDt (some (-1)) / 12 ≠ PhysKernel.effDt none / 12 := by
  constructor
  · norm_num [PhysKernel.effDt]
  · norm_num [PhysKernel.effDt]

/-- C5 amended: the STEP `dt` defaulting replaces only an absent or zero
payload by `1.0`; any nonzero `dt`, including negative values, is used as-is,
and the substep size is `effDt / 12`. -/
theorem advance_dt_defaulting_amended :
    PhysKernel.effDt none = 1 ∧
    PhysKernel.effDt (some 0) = 1 ∧
    (∀ d : ℝ, d ≠ 0 → PhysKernel.effDt (some d) = d) ∧
    (∀ (objs : List PhysKernel.Body) (payload : Option ℝ),
      PhysKernel.stepBodies objs payload =
        (PhysKernel.substepF (PhysKernel.effDt payload / 12))^[12] objs) := by
  refine ⟨by norm_num [PhysKernel.effDt], by norm_num [PhysKernel.effDt], ?_, fun _ _ => rfl⟩
  intro d hd
  simp [PhysKernel.effDt, hd]

theorem advance_dt_defaulting_amended_witness :
    PhysKernel.effDt (some (-2)) = -2 :=
  advance_dt_defaulting_amended.2.2.1 (-2) (by norm_num)

/-- Body payload with a negative radius, used to exercise the absence of
validation at the command boundary. -/
def pBad : PhysKernel.BodyInit := { pos := ⟨0, 5, 0⟩, vel := ⟨0, 0, 0⟩, radius := -1 }

/-- C6 counterexample: a SPAWN whose payload has radius `-1` is not rejected;
the store changes (the body is appended), so no `InvalidBody` rejection with
unchanged state occurs anywhere in the worker. -/
theorem spawn_accepts_nonpositive_radius :
    pBad.radius < 0 ∧
    PhysKernel.spawnCmd [] pBad = [PhysKernel.mkBody pBad] ∧
    PhysKernel.spawnCmd [] pBad ≠ [] := by
  refine ⟨by norm_num [pBad], rfl, ?_⟩
  simp [PhysKernel.spawnCmd]

/-- C6 amended: Initialize and Spawn perform no validation at all.  Even for
a body with non-positive radius the store is unconditionally replaced
(Initialize) or extended by one body (Spawn); no error value exists in the
worker. -/
theorem spawn_no_validation_amended (objs : List PhysKernel.Body)
    (p : PhysKernel.BodyInit) (_hp : p.radius ≤ 0) :
    PhysKernel.spawnCmd objs p = objs ++ [PhysKernel.mkBody p] ∧
    (PhysKernel.spawnCmd objs p).length = objs.length + 1 ∧
    (∀ ps : List PhysKernel.BodyInit, PhysKernel.initCmd ps = ps.map PhysKernel.mkBody) := by
  refine ⟨rfl, ?_, fun _ => rfl⟩
  simp [PhysKernel.spawnCmd]

theorem spawn_no_validation_amended_witness :
    PhysKernel.spawnCmd [] pBad = [] ++ [PhysKernel.mkBody pBad] :=
  (spawn_no_validation_amended [] pBad (by norm_num [pBad])).1

/-- Body used in the RESET counterexample store. -/
def wr : PhysKernel.Body :=
  { pos := ⟨0, 5, 0⟩, prevPos := ⟨0, 5, 0⟩, vel := ⟨1, 0, 0⟩, radius := 1, invMass := 1 }

/-- C7 counterexample: RESET never reads its payload; applied to a store of
45 bodies with a requested baseline of 20 it truncates to the hard-coded 35,
not to `min(45, 20) = 20`. -/
theorem reset_ignores_baseline_counterexample :
    (PhysKernel.resetCmd (some 20) (List.replicate 45 wr) (fun _ => 1 / 2)).length = 35 ∧
    min (List.replicate 45 wr).length 20 = 20 ∧ (35 : ℕ) ≠ 20 := by
  refine ⟨?_, by simp, by norm_num⟩
  rw [PhysKernel.resetCmd, drawMap_length]
  simp

/-- C7 amended: RESET ignores any baseline parameter and truncates the store
to `min(n, 35)`; each retained body keeps its radius, inverse mass and
`prevPos`, has its velocity zeroed, and has its position re-randomized with
`x, z ∈ [-2.5, 2.5)` and `y ∈ [10, 30)` (given draws in `[0, 1)`). -/
theorem reset_semantics_amended (p : Option ℕ) (objs : List PhysKernel.Body) (r : ℕ → ℝ) :
    (PhysKernel.resetCmd p objs r).length = min objs.length 35 ∧
    (∀ i, (PhysKernel.resetCmd p objs r).get? i =
      ((objs.take 35).get? i).map (PhysKernel.resetBody r (3 * i))) ∧
    (∀ (b : PhysKernel.Body) (k : ℕ),
      (PhysKernel.resetBody r k b).radius = b.radius ∧
      (PhysKernel.resetBody r k b).invMass = b.invMass ∧
      (PhysKernel.resetBody r k b).prevPos = b.prevPos ∧
      (PhysKernel.resetBody r k b).vel = ⟨0, 0, 0⟩ ∧
      (PhysKernel.resetBody r k b).pos =
        ⟨(r k - 0.5) * 5.0, 10 + r (k + 1) * 20, (r (k + 2) - 0.5) * 5.0⟩) ∧
    ((∀ n, 0 ≤ r n ∧ r n < 1) → ∀ (b : PhysKernel.Body) (k : ℕ),
      -2.5 ≤ (PhysKernel.resetBody r k b).pos.x ∧ (PhysKernel.resetBody r k b).pos.x < 2.5 ∧
      10 ≤ (PhysKernel.resetBody r k b).pos.y ∧ (PhysKernel.resetBody r k b).pos.y < 30 ∧
      -2.5 ≤ (PhysKernel.resetBody r k b).pos.z ∧ (PhysKernel.resetBody r k b).pos.z < 2.5) := by
  refine ⟨?_, ?_, fun b k => ⟨rfl, rfl, rfl, rfl, rfl⟩, ?_⟩
  · rw [PhysKernel.resetCmd, drawMap_length, List.length_take, Nat.min_comm]
  · intro i
    rw [PhysKernel.resetCmd, drawMap_get?]
    norm_num
  · intro hr b k
    have h0 := hr k
    have h1 := hr (k + 1)
    have h2 := hr (k + 2)
    have hx : (PhysKernel.resetBody r k b).pos.x = (r k - 0.5) * 5.0 := rfl
    have hy : (PhysKernel.resetBody r k b).pos.y = 10 + r (k + 1) * 20 := rfl
    have hz : (PhysKernel.resetBody r k b).pos.z = (r (k + 2) - 0.5) * 5.0 := rfl
    rw [hx, hy, hz]
    norm_num
    constructor
    · linarith [h0.1]
    constructor
    · linarith [h0.2]
    constructor
    · linarith [h1.1]
    constructor
    · linarith [h1.2]
    constructor
    · linarith [h2.1]
    · linarith [h2.2]

theorem reset_semantics_amended_witness :
    (PhysKernel.resetCmd none [wr] (fun _ => 1 / 2)).length = min 1 35 ∧
    10 ≤ (PhysKernel.resetBody (fun _ => (1 : ℝ) / 2) 0 wr).pos.y := by
  have hthm := reset_semantics_amended none [wr] (fun _ => (1 : ℝ) / 2)
  exact ⟨by simpa using hthm.1,
    (hthm.2.2.2 (fun n => by norm_num) wr 0).2.2.1⟩

/-- C8: Impulse frame property.  EXPLOSION keeps the body count and, for every
body, its position, previous position, radius and inverse mass; it only adds
to the velocity: `(r - 0.5) * 3.5` on each horizontal component and the
non-negative (for draws `≥ 0`) term `r * 3.5 * 1.5` on the vertical one. -/
theorem impulse_frame_property (objs : List PhysKernel.Body) (r : ℕ → ℝ) :
    (PhysKernel.explosionCmd objs r).length = objs.length ∧
    (∀ i, (PhysKernel.explosionCmd objs r).get? i =
      (objs.get? i).map (PhysKernel.explosionBody r (3 * i))) ∧
    (∀ (b : PhysKernel.Body) (k : ℕ),
      (PhysKernel.explosionBody r k b).pos = b.pos ∧
      (PhysKernel.explosionBody r k b).prevPos = b.prevPos ∧
      (PhysKernel.explosionBody r k b).radius = b.radius ∧
      (PhysKernel.explosionBody r k b).invMass = b.invMass ∧
      (PhysKernel.explosionBody r k b).vel.x = b.vel.x + (r k - 0.5) * 3.5 ∧
      (PhysKernel.explosionBody r k b).vel.y = b.vel.y + r (k + 1) * 3.5 * 1.5 ∧
      (PhysKernel.explosionBody r k b).vel.z = b.vel.z + (r (k + 2) - 0.5) * 3.5) ∧
    ((∀ n, 0 ≤ r n) → ∀ (b : PhysKernel.Body) (k : ℕ),
      b.vel.y ≤ (PhysKernel.explosionBody r k b).vel.y) := by
  refine ⟨drawMap_length _ objs 0, ?_, fun b k => ⟨rfl, rfl, rfl, rfl, rfl, rfl, rfl⟩, ?_⟩
  · intro i
    rw [PhysKernel.explosionCmd, drawMap_get?]
    norm_num
  · intro hr b k
    have hy : (PhysKernel.explosionBody r k b).vel.y = b.vel.y + r (k + 1) * 3.5 * 1.5 := rfl
    rw [hy]
    have := hr (k + 1)
    nlinarith

/-- Witness body for the impulse frame property. -/
def wimp : PhysKernel.Body :=
  { pos := ⟨2, 3, 4⟩, prevPos := ⟨2, 3, 4⟩, vel := ⟨0, -1, 0⟩, radius := 1, invMass := 1 }

theorem impulse_frame_property_witness :
    (PhysKernel.explosionCmd [wimp] (fun _ => 1 / 2)).length = 1 ∧
    wimp.vel.y ≤ (PhysKernel.explosionBody (fun _ => (1 : ℝ) / 2) 0 wimp).vel.y := by
  have hthm := impulse_frame_property [wimp] (fun _ => (1 : ℝ) / 2)
  exact ⟨by simpa using hthm.1, hthm.2.2.2 (fun n => by norm_num) wimp 0⟩

/-- C9: Determinism of Advance.  A sequence of STEP messages consults neither
the random stream nor the draw counter: two runs from the same store and the
same `dt` sequence, under arbitrary (and arbitrarily offset) random streams,
produce the same post-store and the same posted position snapshots. -/
theorem advance_determinism (dts : List (Option ℝ)) :
    ∀ (objs : List PhysKernel.Body) (outs : List (List ℝ)) (r r' : ℕ → ℝ) (k k' : ℕ),
      (PhysKernel.runSteps r ⟨objs, k, outs⟩ dts).objs =
        (PhysKernel.runSteps r' ⟨objs, k', outs⟩ dts).objs ∧
      (PhysKernel.runSteps r ⟨objs, k, outs⟩ dts).outputs =
        (PhysKernel.runSteps r' ⟨objs, k', outs⟩ dts).outputs := by
  induction dts with
  | nil => intro objs outs r r' k k'; exact ⟨rfl, rfl⟩
  | cons d rest ih =>
    intro objs outs r r' k k'
    simp only [PhysKernel.runSteps, List.foldl_cons, PhysKernel.handle]
    exact ih (PhysKernel.stepBodies objs d)
      (outs ++ [PhysKernel.positionsOut (PhysKernel.stepBodies objs d)]) r r' k k'

section InvMassHelpers

lemma map_invMass_predict (h : ℝ) (objs : List PhysKernel.Body) :
    (objs.map (PhysKernel.predictBody h)).map PhysKernel.Body.invMass =
      objs.map PhysKernel.Body.invMass := by
  rw [List.map_map]
  rfl

lemma map_invMass_envPass (objs : List PhysKernel.Body) :
    (PhysKernel.envPass objs).map PhysKernel.Body.invMass =
      objs.map PhysKernel.Body.invMass := by
  rw [PhysKernel.envPass, List.map_map]
  congr 1
  funext b
  exact envBody_invMass b

lemma map_invMass_velPass (h : ℝ) (objs : List PhysKernel.Body) :
    (objs.map (PhysKernel.velBody h)).map PhysKernel.Body.invMass =
      objs.map PhysKernel.Body.invMass := by
  rw [List.map_map]
  rfl

lemma iterate_map_invMass (f : List PhysKernel.Body → List PhysKernel.Body)
    (hf : ∀ l, (f l).map PhysKernel.Body.invMass = l.map PhysKernel.Body.invMass) :
    ∀ (n : ℕ) (l : List PhysKernel.Body),
      (f^[n] l).map PhysKernel.Body.invMass = l.map PhysKernel.Body.invMass := by
  intro n
  induction n with
  | zero => intro l; rfl
  | succ m ih =>
    intro l
    rw [Function.iterate_succ_apply', hf, ih]

lemma map_invMass_solverIter (objs : List PhysKernel.Body) :
    (PhysKernel.solverIter objs).map PhysKernel.Body.invMass =
      objs.map PhysKernel.Body.invMass := by
  rw [PhysKernel.solverIter, pairPass_map_invMass, map_invMass_envPass]

lemma map_invMass_substep (h : ℝ) (objs : List PhysKernel.Body) :
    (PhysKernel.substepF h objs).map PhysKernel.Body.invMass =
      objs.map PhysKernel.Body.invMass := by
  rw [PhysKernel.substepF, map_invMass_velPass,
    iterate_map_invMass _ map_invMass_solverIter, map_invMass_predict]

lemma drawMap_map_invMass (g : ℕ → PhysKernel.Body → PhysKernel.Body)
    (hg : ∀ k b, (g k b).invMass = b.invMass) :
    ∀ (l : List PhysKernel.Body) (k : ℕ),
      (PhysKernel.drawMap g k l).map PhysKernel.Body.invMass =
        l.map PhysKernel.Body.invMass := by
  intro l
  induction l with
  | nil => intro k; rfl
  | cons b rest ih =>
    intro k
    simp only [PhysKernel.drawMap, List.map_cons, ih (k + 3), hg k b]

lemma map_const_one (ps : List PhysKernel.BodyInit) :
    ps.map (fun _ => (1 : ℝ)) = List.replicate ps.length 1 := by
  induction ps with
  | nil => rfl
  | cons p rest ih => simp [ih, List.replicate_succ]

end InvMassHelpers

/-- C10: Implicit uniform-inverse-mass invariant.  Every body created by INIT
or SPAWN has inverse mass exactly `1` and `prevPos = pos`; no handler ever
changes any stored inverse mass (STEP and EXPLOSION preserve it per index,
RESET keeps the truncated prefix's values); consequently any pair of stored
bodies has combined inverse mass `2` and the pairwise corrections are split
exactly equally, `overlap / 2` each. -/
theorem uniform_inverse_mass_invariant :
    (∀ p : PhysKernel.BodyInit, (PhysKernel.mkBody p).invMass = 1 ∧
      (PhysKernel.mkBody p).prevPos = (PhysKernel.mkBody p).pos) ∧
    (∀ ps, (PhysKernel.initCmd ps).map PhysKernel.Body.invMass =
      List.replicate ps.length 1) ∧
    (∀ objs p, (PhysKernel.spawnCmd objs p).map PhysKernel.Body.invMass =
      objs.map PhysKernel.Body.invMass ++ [1]) ∧
    (∀ objs payload, (PhysKernel.stepBodies objs payload).map PhysKernel.Body.invMass =
      objs.map PhysKernel.Body.invMass) ∧
    (∀ objs r, (PhysKernel.explosionCmd objs r).map PhysKernel.Body.invMass =
      objs.map PhysKernel.Body.invMass) ∧
    (∀ p objs r, (PhysKernel.resetCmd p objs r).map PhysKernel.Body.invMass =
      (objs.map PhysKernel.Body.invMass).take 35) ∧
    (∀ a b : PhysKernel.Body, a.invMass = 1 → b.invMass = 1 →
      a.invMass + b.invMass = 2 ∧
      PhysKernel.pairCorrA a b = PhysKernel.pairOverlap a b / 2 ∧
      PhysKernel.pairCorrB a b = PhysKernel.pairOverlap a b / 2) := by
  refine ⟨fun p => ⟨rfl, rfl⟩, ?_, ?_, ?_, ?_, ?_, ?_⟩
  · intro ps
    rw [PhysKernel.initCmd, List.map_map]
    exact map_const_one ps
  · intro objs p
    simp [PhysKernel.spawnCmd, PhysKernel.mkBody]
  · intro objs payload
    rw [PhysKernel.stepBodies]
    exact iterate_map_invMass _ (map_invMass_substep _) 12 objs
  · intro objs r
    rw [PhysKernel.explosionCmd]
    exact drawMap_map_invMass (PhysKernel.explosionBody r) (fun k b => rfl) objs 0
  · intro p objs r
    rw [PhysKernel.resetCmd,
      drawMap_map_invMass (PhysKernel.resetBody r) (fun k b => rfl), List.map_take]
  · intro a b ha hb
    refine ⟨by rw [ha, hb]; norm_num, ?_, ?_⟩
    · rw [PhysKernel.pairCorrA, ha, hb]
      norm_num
      ring
    · rw [PhysKernel.pairCorrB, ha, hb]
      norm_num
      ring

/-- Unit-inverse-mass witness pair. -/
def wu : PhysKernel.Body :=
  { pos := ⟨0, 1, 0⟩, prevPos := ⟨0, 1, 0⟩, vel := ⟨0, 0, 0⟩, radius := 1, invMass := 1 }

/-- Second unit-inverse-mass witness body. -/
def wv : PhysKernel.Body :=
  { pos := ⟨1.5, 1, 0⟩, prevPos := ⟨1.5, 1, 0⟩, vel := ⟨0, 0, 0⟩, radius := 1, invMass := 1 }

theorem uniform_inverse_mass_invariant_witness :
    wu.invMass + wv.invMass = 2 ∧
    PhysKernel.pairCorrA wu wv = PhysKernel.pairOverlap wu wv / 2 ∧
    PhysKernel.pairCorrB wu wv = PhysKernel.pairOverlap wu wv / 2 :=
  uniform_inverse_mass_invariant.2.2.2.2.2.2 wu wv rfl rfl

end PhysKernel
